import Mathlib

/-!
Shallow embedding of `syslog.go` (package syslog): the RFC 5424 message
formatter `formatSyslog`, the `StructuredData` / `SDElement` model with
its sorted serialization, the priority-checked `NewWriter`, the
pass-through `writer.Write`, and `logger.Log`.

Modelling conventions:
* Go strings are Lean `String`s (`List Char` underneath); Go's bytewise
  lexicographic string order is the executable `lexLt` / `strLe` below
  (Lean's own `String.le` is not kernel-reducible).
* Go maps (`StructuredData`, `SDElement`) are association lists; the
  arbitrary iteration order of a Go map is reflected by quantifying over
  permutations of the association list, and the uniqueness of map keys by
  a `Nodup` hypothesis on the key list.
* `time.Time.Format` is opaque: the formatted timestamp is taken as an
  arbitrary string argument.
* A Go `panic` (invalid priority in `NewWriter`, index out of range in
  `formatSyslog` on an empty body) is `none` in an `Option` result.
* The sink wrapped by `writer` is an accumulating `String`; a successful
  `Write` returns the number of bytes handed to the sink.
-/

namespace Syslog

/-- Severity constant from the `const` block of syslog.go (iota = 0). -/
def EMERG : Int := 0

/-- Severity constant (iota = 1). -/
def ALERT : Int := 1

/-- Severity constant (iota = 2). -/
def CRIT : Int := 2

/-- Severity constant (iota = 3). -/
def ERR : Int := 3

/-- Severity constant (iota = 4). -/
def WARNING : Int := 4

/-- Severity constant (iota = 5). -/
def NOTICE : Int := 5

/-- Severity constant (iota = 6). -/
def INFO : Int := 6

/-- Severity constant (iota = 7). -/
def DEBUG : Int := 7

/-- Facility constant from the `const` block of syslog.go (iota << 3). -/
def KERN : Int := 0 <<< 3

/-- Facility constant (1 << 3). -/
def USER : Int := 1 <<< 3

/-- Facility constant (23 << 3), the largest facility. -/
def LOCAL7 : Int := 23 <<< 3

/-- `const version = 1`, defined in RFC 5424. -/
def version : Int := 1

/-- Strict bytewise lexicographic order on character lists, the order
`sort.Strings` sorts by. -/
def lexLt : List Char → List Char → Bool
  | [], [] => false
  | [], _ :: _ => true
  | _ :: _, [] => false
  | a :: as, b :: bs => if a < b then true else if b < a then false else lexLt as bs

/-- Strict lexicographic order on strings. -/
def strLt (a b : String) : Bool :=
  lexLt a.data b.data

/-- Non-strict lexicographic order on strings. -/
def strLe (a b : String) : Bool :=
  ! strLt b a

/-- `sort.Strings`: sort a list of strings in nondecreasing
lexicographic order. -/
def sortStrings (l : List String) : List String :=
  List.insertionSort (fun a b => strLe a b = true) l

/-- `type SDElement map[string]string`, as an association list. -/
abbrev SDElement : Type := List (String × String)

/-- `type StructuredData map[string]SDElement`, as an association list. -/
abbrev StructuredData : Type := List (String × SDElement)

/-- Go map read `e[name]` on an `SDElement` (zero value `""` when absent). -/
def getParam (e : SDElement) (name : String) : String :=
  (List.lookup name e).getD ""

/-- Go map read `d[id]` on a `StructuredData` (zero value: empty element). -/
def sdElem (d : StructuredData) (id : String) : SDElement :=
  (List.lookup id d).getD []

/-- Key list of a `StructuredData` (the range of Go's `for id := range d`). -/
def sdKeys (d : StructuredData) : List String :=
  d.map Prod.fst

/-- Key list of an `SDElement`. -/
def elemKeys (e : SDElement) : List String :=
  e.map Prod.fst

/-- `StructuredData.Ids`: the ids whose element is non-empty, sorted
lexicographically by `sort.Strings`. -/
def Ids (d : StructuredData) : List String :=
  sortStrings ((sdKeys d).filter (fun id => 0 < (sdElem d id).length))

/-- `SDElement.Names`: the parameter names, sorted lexicographically. -/
def Names (e : SDElement) : List String :=
  sortStrings (elemKeys e)

/-- One step of `strings.NewReplacer` with the pairs
`"` ↦ `\"`, `\` ↦ `\\`, `]` ↦ `\]`: each pattern is a single character,
so the single simultaneous pass is a character-wise substitution. -/
def escChar (c : Char) : List Char :=
  if c = '"' ∨ c = '\\' ∨ c = ']' then ['\\', c] else [c]

/-- The replacer applied to a whole character list. -/
def escapeL (s : List Char) : List Char :=
  (s.map escChar).flatten

/-- `r.Replace` of `StructuredData.String` on a parameter value. -/
def escape (s : String) : String :=
  ⟨escapeL s.data⟩

/-- Sequential concatenation of strings, as a Go loop writing each piece
to a `bytes.Buffer` does. -/
def strConcat : List String → String
  | [] => ""
  | s :: rest => s ++ strConcat rest

/-- One ` name="value"` fragment of `StructuredData.String`. -/
def paramStr (e : SDElement) (name : String) : String :=
  " " ++ name ++ "=\"" ++ escape (getParam e name) ++ "\""

/-- One `[id name="value"...]` block of `StructuredData.String`
(the `if len(elem) > 0` guard included). -/
def elemStr (d : StructuredData) (id : String) : String :=
  let elem := sdElem d id
  if 0 < elem.length then
    "[" ++ id ++ strConcat ((Names elem).map (paramStr elem)) ++ "]"
  else
    ""

/-- `StructuredData.String`: the serialized structured-data fragment. -/
def sdString (d : StructuredData) : String :=
  strConcat ((Ids d).map (elemStr d))

/-- `defaultIfEmpty` from syslog.go. -/
def defaultIfEmpty (s dflt : String) : String :=
  if s = "" then dflt else s

/-- The trailing byte appended by `formatSyslog`'s final step: nothing if
the body already ends in a newline, one newline byte otherwise. -/
def newlineSuffix (msg : String) : String :=
  if msg.data.getLast? = some '\n' then "" else "\n"

/-- The `sd` value computed by `formatSyslog` before `defaultIfEmpty`:
empty for a `nil` StructuredData, its `String()` serialization otherwise. -/
def sdFragment : Option StructuredData → String
  | none => ""
  | some d => sdString d

/-- The interpolation
`fmt.Fprintf(buf, "<%d>%d %s %s %s %s %s %s %s", pri, version, ts,
hostname, appName, procid, msgid, sd, msg)` of `formatSyslog`. -/
def syslogLine (pri : Int) (ts hn an pid mid sd msg : String) : String :=
  "<" ++ toString pri ++ ">" ++ toString version ++ " " ++ ts ++ " " ++ hn ++
    " " ++ an ++ " " ++ pid ++ " " ++ mid ++ " " ++ sd ++ " " ++ msg

/-- `formatSyslog` from syslog.go. The timestamp is the already-formatted
string (`timestamp.Format(timeFormat)` is opaque here). The unguarded Go
index `msg[len(msg)-1]` panics on an empty body: that is the `none` case. -/
def formatSyslog (pri : Int) (ts hostname appName procid msgid : String)
    (structData : Option StructuredData) (msg : String) : Option String :=
  if msg = "" then
    none
  else
    some (syslogLine pri ts (defaultIfEmpty hostname "-")
      (defaultIfEmpty appName "-") (defaultIfEmpty procid "-")
      (defaultIfEmpty msgid "-") (defaultIfEmpty (sdFragment structData) "-")
      msg ++ newlineSuffix msg)

/-- `logger.Log`: formats with the logger's fields and writes the line to
the sink (`msg` stands for the `fmt.Sprintf(msgFormat, a...)` result, `ts`
for the formatted `time.Now()`). -/
def loggerLog (hostname appName procid : String) (pri : Int) (msgId : String)
    (sd : Option StructuredData) (ts msg : String) (sink : String) :
    Option String :=
  (formatSyslog pri ts hostname appName procid msgId sd msg).map
    (fun line => sink ++ line)

/-- The `writer` struct (the wrapped `io.Writer` lives outside the model). -/
structure Writer where
  pri : Int
deriving DecidableEq

/-- `NewWriter`: panics (`none`) outside `[0, LOCAL7|DEBUG]`, otherwise
returns a writer bound to exactly the given priority. -/
def NewWriter (pri : Int) : Option Writer :=
  if pri < 0 ∨ Int.lor LOCAL7 DEBUG < pri then none else some ⟨pri⟩

/-- `writer.Write`: empty input writes nothing; input not starting with
`<` is formatted (the formatting done by `writer.format` is abstract here
as `format`); input starting with `<` passes through unformatted. -/
def writerWrite (format : String → String) (d : String) (sink : String) :
    Nat × String :=
  if d = "" then (0, sink)
  else if d.data.head? ≠ some '<' then ((format d).length, sink ++ format d)
  else (d.length, sink ++ d)

/-- A decimal rendering with no sign and no leading zero: all characters
are digits, and a zero first digit only for the string "0" itself. -/
def plainDecimal (s : String) : Bool :=
  s.data.all (fun c => c.isDigit) && (s == "0" || s.data.head? != some '0')

/-- Go `strings.Replace`-style full replacement of the single character
`pat` by `rep`, one pass, left to right. -/
def replaceChar (pat : Char) (rep : List Char) (s : List Char) : List Char :=
  (s.map (fun c => if c = pat then rep else [c])).flatten

end Syslog

namespace Syslog

example : sdString [("b", [("y", "2")]), ("a", [("x", "1")])]
    = "[a x=\"1\"][b y=\"2\"]" := by decide

example : escape "a\"b\\c]d" = "a\\\"b\\\\c\\]d" := by decide

example : formatSyslog 165 "T" "h" "app" "42" "ID47" none "hi"
    = some "<165>1 T h app 42 ID47 - hi\n" := by decide

example : NewWriter 200 = none := by decide

example : writerWrite (fun s => s) "<x" "" = (2, "<x") := by decide

example : Int.lor LOCAL7 DEBUG = 191 := by decide

/-! ### The lexicographic order underlying `sort.Strings` -/

theorem lexLt_irrefl : ∀ l : List Char, lexLt l l = false
  | [] => rfl
  | a :: as => by simp [lexLt, lexLt_irrefl as]

theorem lexLt_trans : ∀ {a b c : List Char},
    lexLt a b = true → lexLt b c = true → lexLt a c = true
  | [], [], _, h1, _ => by simp [lexLt] at h1
  | [], _ :: _, [], _, h2 => by simp [lexLt] at h2
  | [], _ :: _, _ :: _, _, _ => rfl
  | _ :: _, [], _, h1, _ => by simp [lexLt] at h1
  | _ :: _, _ :: _, [], _, h2 => by simp [lexLt] at h2
  | x :: xs, y :: ys, z :: zs, h1, h2 => by
    simp only [lexLt] at h1 h2 ⊢
    by_cases hxy : x < y
    · by_cases hyz : y < z
      · rw [if_pos (lt_trans hxy hyz)]
      · rw [if_neg hyz] at h2
        by_cases hzy : z < y
        · rw [if_pos hzy] at h2; exact Bool.noConfusion h2
        · have hyz' : y = z := le_antisymm (not_lt.mp hzy) (not_lt.mp hyz)
          subst hyz'
          rw [if_pos hxy]
    · rw [if_neg hxy] at h1
      by_cases hyx : y < x
      · rw [if_pos hyx] at h1; exact Bool.noConfusion h1
      · have hxy' : x = y := le_antisymm (not_lt.mp hyx) (not_lt.mp hxy)
        subst hxy'
        rw [if_neg hyx] at h1
        by_cases hxz : x < z
        · rw [if_pos hxz]
        · rw [if_neg hxz] at h2 ⊢
          by_cases hzx : z < x
          · rw [if_pos hzx] at h2; exact Bool.noConfusion h2
          · rw [if_neg hzx] at h2 ⊢
            exact lexLt_trans h1 h2

theorem lexLt_connex : ∀ {a b : List Char},
    lexLt a b = false → lexLt b a = false → a = b
  | [], [], _, _ => rfl
  | [], _ :: _, h1, _ => by simp [lexLt] at h1
  | _ :: _, [], _, h2 => by simp [lexLt] at h2
  | x :: xs, y :: ys, h1, h2 => by
    simp only [lexLt] at h1 h2
    by_cases hxy : x < y
    · rw [if_pos hxy] at h1; exact Bool.noConfusion h1
    · by_cases hyx : y < x
      · rw [if_pos hyx] at h2; exact Bool.noConfusion h2
      · have hxy' : x = y := le_antisymm (not_lt.mp hyx) (not_lt.mp hxy)
        subst hxy'
        rw [if_neg hxy, if_neg hxy] at h1
        rw [if_neg hxy, if_neg hxy] at h2
        rw [lexLt_connex h1 h2]

theorem lexLt_asymm {a b : List Char} (h : lexLt a b = true) :
    lexLt b a = false := by
  cases hba : lexLt b a
  · rfl
  · have := lexLt_trans h hba
    rw [lexLt_irrefl] at this
    cases this

theorem strLe_total (a b : String) : strLe a b = true ∨ strLe b a = true := by
  unfold strLe strLt
  cases h : lexLt b.data a.data
  · left; rfl
  · right; rw [lexLt_asymm h]; rfl

theorem strLe_trans {a b c : String} (h1 : strLe a b = true)
    (h2 : strLe b c = true) : strLe a c = true := by
  unfold strLe strLt at h1 h2 ⊢
  rw [Bool.not_eq_true'] at h1 h2 ⊢
  cases hca : lexLt c.data a.data
  · rfl
  · exfalso
    cases hbc : lexLt b.data c.data
    · have := lexLt_connex h2 hbc
      rw [this] at hca
      rw [hca] at h1
      cases h1
    · have := lexLt_trans hbc hca
      rw [this] at h1
      cases h1

theorem strData_inj {a b : String} (h : a.data = b.data) : a = b := by
  cases a; cases b; cases h; rfl

theorem strLe_antisymm {a b : String} (h1 : strLe a b = true)
    (h2 : strLe b a = true) : a = b := by
  unfold strLe strLt at h1 h2
  rw [Bool.not_eq_true'] at h1 h2
  exact strData_inj (lexLt_connex h2 h1)

theorem strLt_of_le_of_ne {a b : String} (h1 : strLe a b = true)
    (h2 : a ≠ b) : strLt a b = true := by
  unfold strLe at h1
  unfold strLt at h1 ⊢
  rw [Bool.not_eq_true'] at h1
  cases hab : lexLt a.data b.data
  · exact absurd (strData_inj (lexLt_connex hab h1)) h2
  · rfl

instance : IsTotal String (fun a b => strLe a b = true) :=
  ⟨strLe_total⟩

instance : IsTrans String (fun a b => strLe a b = true) :=
  ⟨fun _ _ _ => strLe_trans⟩

instance : IsAntisymm String (fun a b => strLe a b = true) :=
  ⟨fun _ _ => strLe_antisymm⟩

theorem sorted_sortStrings (l : List String) :
    List.Sorted (fun a b => strLe a b = true) (sortStrings l) :=
  List.sorted_insertionSort _ l

theorem perm_sortStrings (l : List String) : (sortStrings l).Perm l :=
  List.perm_insertionSort _ l

theorem sortStrings_eq_of_perm {l l' : List String} (h : l.Perm l') :
    sortStrings l = sortStrings l' :=
  List.eq_of_perm_of_sorted
    ((perm_sortStrings l).trans (h.trans (perm_sortStrings l').symm))
    (sorted_sortStrings l) (sorted_sortStrings l')

theorem pairwise_strLt_of_sorted_nodup {l : List String}
    (hs : List.Sorted (fun a b => strLe a b = true) l) (hn : l.Nodup) :
    List.Pairwise (fun a b => strLt a b = true) l :=
  hs.imp₂ (fun _ _ => strLt_of_le_of_ne) hn

/-! ### Association-list lookup under permutation -/

theorem mem_of_lookup_eq_some {β : Type} {a : String} {b : β} :
    ∀ {l : List (String × β)}, List.lookup a l = some b → (a, b) ∈ l
  | [], h => by simp [List.lookup] at h
  | (k, v) :: t, h => by
    by_cases hk : a = k
    · subst hk
      rw [List.lookup_cons, show (a == a) = true from beq_self_eq_true a] at h
      cases h
      exact List.mem_cons_self _ _
    · rw [List.lookup_cons,
        show (a == k) = false from beq_eq_false_iff_ne.mpr hk] at h
      exact List.mem_cons_of_mem _ (mem_of_lookup_eq_some h)

theorem lookup_eq_none_iff {β : Type} {a : String} :
    ∀ {l : List (String × β)}, List.lookup a l = none ↔ a ∉ l.map Prod.fst
  | [] => by simp [List.lookup]
  | (k, v) :: t => by
    by_cases hk : a = k
    · subst hk
      rw [List.lookup_cons, show (a == a) = true from beq_self_eq_true a]
      simp
    · rw [List.lookup_cons,
        show (a == k) = false from beq_eq_false_iff_ne.mpr hk]
      simp [lookup_eq_none_iff, hk]

theorem lookup_eq_some_of_mem {β : Type} :
    ∀ {l : List (String × β)}, (l.map Prod.fst).Nodup →
      ∀ {a : String} {b : β}, (a, b) ∈ l → List.lookup a l = some b
  | [], _, _, _, h => by cases h
  | (k, v) :: t, hn, a, b, h => by
    rw [List.map_cons, List.nodup_cons] at hn
    rcases List.mem_cons.mp h with h1 | h1
    · cases h1
      rw [List.lookup_cons, show (k == k) = true from beq_self_eq_true k]
    · have hak : a ≠ k := by
        rintro rfl
        exact hn.1 (List.mem_map.mpr ⟨(a, b), h1, rfl⟩)
      rw [List.lookup_cons,
        show (a == k) = false from beq_eq_false_iff_ne.mpr hak]
      exact lookup_eq_some_of_mem hn.2 h1

theorem lookup_perm {β : Type} {l l' : List (String × β)} (h : l.Perm l')
    (hn : (l.map Prod.fst).Nodup) (a : String) :
    List.lookup a l = List.lookup a l' := by
  cases hl : List.lookup a l' with
  | some b =>
    exact lookup_eq_some_of_mem hn (h.mem_iff.mpr (mem_of_lookup_eq_some hl))
  | none =>
    rw [lookup_eq_none_iff] at hl ⊢
    intro hmem
    exact hl ((h.map Prod.fst).mem_iff.mp hmem)

/-! ### Properties of `Ids`, `Names` and the serialization -/

theorem Ids_nodup {d : StructuredData} (hn : (sdKeys d).Nodup) :
    (Ids d).Nodup :=
  ((perm_sortStrings _).nodup_iff).mpr (hn.filter _)

theorem Names_nodup {e : SDElement} (hn : (elemKeys e).Nodup) :
    (Names e).Nodup :=
  ((perm_sortStrings _).nodup_iff).mpr hn

theorem Ids_sorted {d : StructuredData} (hn : (sdKeys d).Nodup) :
    List.Pairwise (fun a b => strLt a b = true) (Ids d) :=
  pairwise_strLt_of_sorted_nodup (sorted_sortStrings _) (Ids_nodup hn)

theorem Names_sorted {e : SDElement} (hn : (elemKeys e).Nodup) :
    List.Pairwise (fun a b => strLt a b = true) (Names e) :=
  pairwise_strLt_of_sorted_nodup (sorted_sortStrings _) (Names_nodup hn)

theorem sdElem_eq_of_perm {d d' : StructuredData} (h : d.Perm d')
    (hn : (sdKeys d).Nodup) : sdElem d = sdElem d' :=
  funext fun id => by unfold sdElem; rw [lookup_perm h hn id]

theorem Ids_eq_of_perm {d d' : StructuredData} (h : d.Perm d')
    (hn : (sdKeys d).Nodup) : Ids d = Ids d' := by
  unfold Ids
  rw [sdElem_eq_of_perm h hn]
  exact sortStrings_eq_of_perm ((h.map Prod.fst).filter _)

theorem elemStr_eq_of_perm {d d' : StructuredData} (h : d.Perm d')
    (hn : (sdKeys d).Nodup) : elemStr d = elemStr d' := by
  funext id
  unfold elemStr
  rw [sdElem_eq_of_perm h hn]

theorem sdString_eq_of_perm {d d' : StructuredData} (h : d.Perm d')
    (hn : (sdKeys d).Nodup) : sdString d = sdString d' := by
  unfold sdString
  rw [elemStr_eq_of_perm h hn, Ids_eq_of_perm h hn]

theorem Names_eq_of_perm {e e' : SDElement} (h : e.Perm e') :
    Names e = Names e' :=
  sortStrings_eq_of_perm (h.map Prod.fst)

theorem append_eq_empty_iff (s t : String) : s ++ t = "" ↔ s = "" ∧ t = "" := by
  constructor
  · intro h
    have := congrArg String.data h
    rw [String.data_append] at this
    rcases List.append_eq_nil.mp this with ⟨h1, h2⟩
    exact ⟨strData_inj h1, strData_inj h2⟩
  · rintro ⟨rfl, rfl⟩
    rfl

theorem strConcat_ne_empty {l : List String} {s : String} (hmem : s ∈ l)
    (hne : s ≠ "") : strConcat l ≠ "" := by
  induction l with
  | nil => cases hmem
  | cons a t ih =>
    rcases List.mem_cons.mp hmem with rfl | h1
    · intro h
      exact hne ((append_eq_empty_iff _ _).mp h).1
    · intro h
      exact ih h1 ((append_eq_empty_iff _ _).mp h).2

theorem strConcat_head : ∀ l : List String,
    (∀ s ∈ l, s = "" ∨ s.data.head? = some '[') →
    strConcat l = "" ∨ (strConcat l).data.head? = some '['
  | [], _ => Or.inl rfl
  | a :: t, h => by
    rcases h a (List.mem_cons_self a t) with ha | ha
    · subst ha
      have : strConcat ("" :: t) = strConcat t := by
        show "" ++ strConcat t = strConcat t
        exact strData_inj (by rw [String.data_append]; rfl)
      rw [this]
      exact strConcat_head t (fun s hs => h s (List.mem_cons_of_mem _ hs))
    · right
      show (a ++ strConcat t).data.head? = some '['
      rw [String.data_append, List.head?_append]
      cases hd : a.data with
      | nil => rw [hd] at ha; cases ha
      | cons c cs => rw [hd] at ha; simp at ha ⊢; exact ha

theorem elemStr_head (d : StructuredData) (id : String) :
    elemStr d id = "" ∨ (elemStr d id).data.head? = some '[' := by
  unfold elemStr
  by_cases h : 0 < (sdElem d id).length
  · rw [if_pos h]
    right
    rw [show ("[" ++ id ++ strConcat ((Names (sdElem d id)).map (paramStr (sdElem d id))) ++ "]").data
        = "[".data ++ (id.data ++ (strConcat ((Names (sdElem d id)).map (paramStr (sdElem d id)))).data ++ "]".data)
      from by simp [String.data_append]]
    rfl
  · rw [if_neg h]
    exact Or.inl rfl

theorem elemStr_ne_empty {d : StructuredData} {id : String}
    (h : 0 < (sdElem d id).length) : elemStr d id ≠ "" := by
  unfold elemStr
  rw [if_pos h]
  intro hc
  have := ((append_eq_empty_iff _ _).mp hc).2
  exact absurd this (by decide)

theorem sdString_head (d : StructuredData) :
    sdString d = "" ∨ (sdString d).data.head? = some '[' := by
  unfold sdString
  apply strConcat_head
  intro s hs
  obtain ⟨id, _, rfl⟩ := List.mem_map.mp hs
  exact elemStr_head d id

theorem sdFragment_ne_dash (sd : Option StructuredData) :
    sdFragment sd ≠ "-" := by
  cases sd with
  | none => exact (by decide : ("" : String) ≠ "-")
  | some d =>
    show sdString d ≠ "-"
    rcases sdString_head d with h | h
    · rw [h]; decide
    · intro hc
      rw [hc] at h
      cases h

theorem sdString_eq_empty_iff {d : StructuredData} (hn : (sdKeys d).Nodup) :
    sdString d = "" ↔ ∀ pr ∈ d, pr.2 = ([] : SDElement) := by
  constructor
  · intro h0 pr hpr
    by_contra hne
    obtain ⟨id, e⟩ := pr
    have hlook : List.lookup id d = some e := lookup_eq_some_of_mem hn hpr
    have hse : sdElem d id = e := by unfold sdElem; rw [hlook]; rfl
    have hlen : 0 < (sdElem d id).length := by
      rw [hse]
      exact List.length_pos.mpr hne
    have hid : id ∈ Ids d := by
      apply (perm_sortStrings _).mem_iff.mpr
      exact List.mem_filter.mpr
        ⟨List.mem_map.mpr ⟨(id, e), hpr, rfl⟩, by simpa using hlen⟩
    exact strConcat_ne_empty
      (List.mem_map.mpr ⟨id, hid, rfl⟩) (elemStr_ne_empty hlen) h0
  · intro hall
    have hfil : (sdKeys d).filter
        (fun id => decide (0 < (sdElem d id).length)) = [] := by
      rw [List.filter_eq_nil_iff]
      intro id hid
      obtain ⟨pr, hmem, heq⟩ := List.mem_map.mp hid
      simp only [decide_eq_true_eq, not_lt, Nat.le_zero, List.length_eq_zero]
      unfold sdElem
      cases hlk : List.lookup id d with
      | none => rfl
      | some e2 =>
        have := hall _ (mem_of_lookup_eq_some hlk)
        simpa using this
    show strConcat ((Ids d).map (elemStr d)) = ""
    unfold Ids
    rw [hfil]
    rfl

/-! ### The value-escaping replacer -/

theorem escapeL_cons (c : Char) (l : List Char) :
    escapeL (c :: l) = escChar c ++ escapeL l := by
  simp [escapeL]

theorem replaceChar_cons (pat : Char) (rep : List Char) (c : Char)
    (l : List Char) : replaceChar pat rep (c :: l) =
      (if c = pat then rep else [c]) ++ replaceChar pat rep l := by
  simp [replaceChar]

theorem replaceChar_append (pat : Char) (rep : List Char) (x y : List Char) :
    replaceChar pat rep (x ++ y) =
      replaceChar pat rep x ++ replaceChar pat rep y := by
  simp [replaceChar]

theorem escapeL_eq_sequential : ∀ l : List Char,
    escapeL l = replaceChar ']' ['\\', ']']
      (replaceChar '"' ['\\', '"'] (replaceChar '\\' ['\\', '\\'] l))
  | [] => rfl
  | c :: l => by
    rw [escapeL_cons, replaceChar_cons, replaceChar_append, replaceChar_append,
      escapeL_eq_sequential l]
    congr 1
    by_cases h1 : c = '\\'
    · subst h1; decide
    · rw [if_neg h1]
      by_cases h2 : c = '"'
      · subst h2; decide
      · rw [show replaceChar '"' ['\\', '"'] [c] = [c] from by
          simp [replaceChar, h2]]
        by_cases h3 : c = ']'
        · subst h3; decide
        · rw [show replaceChar ']' ['\\', ']'] [c] = [c] from by
            simp [replaceChar, h3]]
          simp [escChar, h1, h2, h3]

theorem escChar_ne_nil (c : Char) : escChar c ≠ [] := by
  unfold escChar
  split <;> simp

theorem escapeL_inj : ∀ {l1 l2 : List Char}, escapeL l1 = escapeL l2 → l1 = l2
  | [], [], _ => rfl
  | [], b :: bs, h => by
    exfalso
    rw [escapeL_cons] at h
    rcases List.append_eq_nil.mp h.symm with ⟨h1, _⟩
    exact escChar_ne_nil b h1
  | a :: as, [], h => by
    exfalso
    rw [escapeL_cons] at h
    rcases List.append_eq_nil.mp h with ⟨h1, _⟩
    exact escChar_ne_nil a h1
  | a :: as, b :: bs, h => by
    rw [escapeL_cons, escapeL_cons] at h
    by_cases ha : a = '"' ∨ a = '\\' ∨ a = ']' <;>
      by_cases hb : b = '"' ∨ b = '\\' ∨ b = ']'
    · rw [show escChar a = ['\\', a] from by simp [escChar, ha],
        show escChar b = ['\\', b] from by simp [escChar, hb]] at h
      simp only [List.cons_append, List.nil_append] at h
      injection h with _ h2
      injection h2 with h3 h4
      rw [h3, escapeL_inj h4]
    · rw [show escChar a = ['\\', a] from by simp [escChar, ha],
        show escChar b = [b] from by simp [escChar, hb]] at h
      simp only [List.cons_append, List.nil_append] at h
      injection h with h1 _
      exact absurd (Or.inr (Or.inl h1.symm)) hb
    · rw [show escChar a = [a] from by simp [escChar, ha],
        show escChar b = ['\\', b] from by simp [escChar, hb]] at h
      simp only [List.cons_append, List.nil_append] at h
      injection h with h1 _
      exact absurd (Or.inr (Or.inl h1)) ha
    · rw [show escChar a = [a] from by simp [escChar, ha],
        show escChar b = [b] from by simp [escChar, hb]] at h
      simp only [List.cons_append, List.nil_append] at h
      injection h with h1 h2
      rw [h1, escapeL_inj h2]

/-! ### The formatted line -/

theorem formatSyslog_eq (pri : Int) (ts hostname appName procid msgid : String)
    (sd : Option StructuredData) (msg : String) (hmsg : msg ≠ "") :
    formatSyslog pri ts hostname appName procid msgid sd msg =
      some (syslogLine pri ts (defaultIfEmpty hostname "-")
        (defaultIfEmpty appName "-") (defaultIfEmpty procid "-")
        (defaultIfEmpty msgid "-") (defaultIfEmpty (sdFragment sd) "-") msg ++
        newlineSuffix msg) := by
  unfold formatSyslog
  rw [if_neg hmsg]

theorem toString_version : toString version = "1" := rfl

set_option maxRecDepth 8192 in
theorem plainDecimal_repr : ∀ k : Fin 192, plainDecimal (Nat.repr k.val) = true := by
  decide

theorem toString_intOfNat (n : Nat) : toString (Int.ofNat n) = Nat.repr n := rfl

theorem plainDecimal_toString {p : Int} (h0 : 0 ≤ p) (h1 : p ≤ 191) :
    plainDecimal (toString p) = true := by
  obtain ⟨n, rfl⟩ := Int.eq_ofNat_of_zero_le h0
  have hn : n < 192 := by
    exact_mod_cast lt_of_le_of_lt h1 (show (191 : Int) < 192 by norm_num)
  have h : plainDecimal (Nat.repr n) = true := plainDecimal_repr ⟨n, hn⟩
  exact h

/-! ### The claims -/

/-- C1: for every priority in the valid range `[0, 191]`, any timestamp
string, and non-empty hostname, appName, procid, msgId, structured-data
fragment and body, `formatSyslog` produces exactly
`<` + decimal priority + `>` + the version digit `1` (no space), then the
remaining fields in fixed order, adjacent fields separated by exactly one
space; the decimal rendering of the priority has no sign and no leading
zero. -/
theorem C1_line_layout (pri : Int) (ts hostname appName procid msgid : String)
    (sd : Option StructuredData) (msg : String)
    (hpri0 : 0 ≤ pri) (hpri1 : pri ≤ 191)
    (hh : hostname ≠ "") (ha : appName ≠ "") (hp : procid ≠ "")
    (hm : msgid ≠ "") (hsd : sdFragment sd ≠ "") (hmsg : msg ≠ "") :
    formatSyslog pri ts hostname appName procid msgid sd msg =
      some ("<" ++ toString pri ++ ">" ++ "1" ++ " " ++ ts ++ " " ++
        hostname ++ " " ++ appName ++ " " ++ procid ++ " " ++ msgid ++ " " ++
        sdFragment sd ++ " " ++ msg ++ newlineSuffix msg) ∧
    plainDecimal (toString pri) = true := by
  constructor
  · rw [formatSyslog_eq _ _ _ _ _ _ _ _ hmsg]
    unfold syslogLine
    rw [toString_version]
    unfold defaultIfEmpty
    rw [if_neg hh, if_neg ha, if_neg hp, if_neg hm, if_neg hsd]
  · exact plainDecimal_toString hpri0 hpri1

theorem C1_line_layout_witness :
    formatSyslog 165 "T" "h" "app" "42" "ID"
        (some [("ex", [("k", "v")])]) "hi" =
      some "<165>1 T h app 42 ID [ex k=\"v\"] hi\n" ∧
    plainDecimal (toString (165 : Int)) = true := by
  have h := C1_line_layout 165 "T" "h" "app" "42" "ID"
    (some [("ex", [("k", "v")])]) "hi" (by decide) (by decide) (by decide)
    (by decide) (by decide) (by decide) (by decide) (by decide)
  exact ⟨by rw [h.1]; rfl, h.2⟩

/-- C2: `Ids` and `Names` are strictly lexicographically ascending (given
distinct map keys), the serialization emits the blocks in exactly the
order of `Ids` (and each block its parameters in the order of `Names`),
and `Ids`, `Names` and the serialization do not depend on the insertion
order of the association list. -/
theorem C2_sorted_order :
    (∀ d : StructuredData, (sdKeys d).Nodup →
      List.Pairwise (fun a b => strLt a b = true) (Ids d)) ∧
    (∀ e : SDElement, (elemKeys e).Nodup →
      List.Pairwise (fun a b => strLt a b = true) (Names e)) ∧
    (∀ d : StructuredData, sdString d = strConcat ((Ids d).map (elemStr d))) ∧
    (∀ d d' : StructuredData, d.Perm d' → (sdKeys d).Nodup →
      Ids d = Ids d' ∧ sdString d = sdString d') ∧
    (∀ e e' : SDElement, e.Perm e' → Names e = Names e') :=
  ⟨fun _ => Ids_sorted, fun _ => Names_sorted, fun _ => rfl,
    fun _ _ h hn => ⟨Ids_eq_of_perm h hn, sdString_eq_of_perm h hn⟩,
    fun _ _ h => Names_eq_of_perm h⟩

theorem C2_sorted_order_witness :
    List.Pairwise (fun a b => strLt a b = true)
      (Ids [("b", [("y", "2")]), ("a", [("x", "1")])]) ∧
    Ids [("b", [("y", "2")]), ("a", [("x", "1")])] =
      Ids [("a", [("x", "1")]), ("b", [("y", "2")])] := by
  refine ⟨C2_sorted_order.1 _ (by decide), ?_⟩
  exact (C2_sorted_order.2.2.2.1 _ _
    (List.Perm.swap ("a", [("x", "1")]) ("b", [("y", "2")]) []) (by decide)).1

/-- C3: the escaping applied to parameter values is exactly the
substitution `\` ↦ `\\`, `"` ↦ `\"`, `]` ↦ `\]` performed as one
simultaneous pass, which coincides with applying the backslash rule
first and then the quote and bracket rules (so characters introduced by
the latter two are never re-escaped); this escaping is injective. -/
theorem C3_escape_injective :
    (∀ u : String, escape u =
      ⟨replaceChar ']' ['\\', ']']
        (replaceChar '"' ['\\', '"']
          (replaceChar '\\' ['\\', '\\'] u.data))⟩) ∧
    (∀ s t : String, escape s = escape t → s = t) := by
  constructor
  · intro u
    exact congrArg String.mk (escapeL_eq_sequential u.data)
  · intro s t h
    apply strData_inj
    apply escapeL_inj
    exact congrArg String.data h

theorem C3_escape_injective_witness : ("a]b" : String) = "a]b" :=
  C3_escape_injective.2 "a]b" "a]b" rfl

/-- C4: for a non-empty body, `formatSyslog` appends nothing when the
body already ends in a newline, and appends exactly one newline byte
otherwise. -/
theorem C4_trailing_newline (pri : Int)
    (ts hostname appName procid msgid : String) (sd : Option StructuredData)
    (msg : String) (hmsg : msg ≠ "") :
    (msg.data.getLast? = some '\n' →
      formatSyslog pri ts hostname appName procid msgid sd msg =
        some (syslogLine pri ts (defaultIfEmpty hostname "-")
          (defaultIfEmpty appName "-") (defaultIfEmpty procid "-")
          (defaultIfEmpty msgid "-") (defaultIfEmpty (sdFragment sd) "-")
          msg)) ∧
    (msg.data.getLast? ≠ some '\n' →
      formatSyslog pri ts hostname appName procid msgid sd msg =
        some (syslogLine pri ts (defaultIfEmpty hostname "-")
          (defaultIfEmpty appName "-") (defaultIfEmpty procid "-")
          (defaultIfEmpty msgid "-") (defaultIfEmpty (sdFragment sd) "-")
          msg ++ "\n")) := by
  constructor <;> intro hlast <;>
    rw [formatSyslog_eq _ _ _ _ _ _ _ _ hmsg] <;> unfold newlineSuffix
  · rw [if_pos hlast, String.append_empty]
  · rw [if_neg hlast]

theorem C4_trailing_newline_witness :
    formatSyslog 5 "T" "h" "a" "p" "m" none "hi\n" =
      some (syslogLine 5 "T" (defaultIfEmpty "h" "-") (defaultIfEmpty "a" "-")
        (defaultIfEmpty "p" "-") (defaultIfEmpty "m" "-")
        (defaultIfEmpty (sdFragment none) "-") "hi\n") ∧
    formatSyslog 5 "T" "h" "a" "p" "m" none "hi" =
      some (syslogLine 5 "T" (defaultIfEmpty "h" "-") (defaultIfEmpty "a" "-")
        (defaultIfEmpty "p" "-") (defaultIfEmpty "m" "-")
        (defaultIfEmpty (sdFragment none) "-") "hi" ++ "\n") :=
  ⟨(C4_trailing_newline 5 "T" "h" "a" "p" "m" none "hi\n" (by decide)).1
      (by decide),
    (C4_trailing_newline 5 "T" "h" "a" "p" "m" none "hi" (by decide)).2
      (by decide)⟩

/-- C5 counterexample: a write whose input starts with `<` and does not
end in a newline reaches the sink without any newline being appended, so
the claim's trailing-newline normalization does not happen on the
pass-through path. -/
theorem C5_counterexample :
    (writerWrite (fun s => s) "<x" "").2 = "<x" ∧
    (writerWrite (fun s => s) "<x" "").2 ≠ "<x" ++ "\n" :=
  ⟨by decide, by decide⟩

/-- C5 (amended): a non-empty input whose first byte is `<` is handed to
the underlying sink byte-for-byte unchanged, with no re-formatting and no
trailing-newline normalization. -/
theorem C5_passthrough (f : String → String) (d sink : String) (hne : d ≠ "")
    (hlt : d.data.head? = some '<') :
    writerWrite f d sink = (d.length, sink ++ d) := by
  unfold writerWrite
  rw [if_neg hne, if_neg (by simp [hlt])]

theorem C5_passthrough_witness :
    writerWrite (fun s => s ++ "!") "<y" "S" = ("<y".length, "S" ++ "<y") :=
  C5_passthrough (fun s => s ++ "!") "<y" "S" (by decide) (by decide)

/-- C6: `NewWriter` fails (panics, modelled as `none`) for every priority
outside `[0, LOCAL7|DEBUG]` and constructs a writer bound to exactly the
given priority for every priority inside it; the bound equals
`23*8 + 7 = 191`. -/
theorem C6_newWriter_validation :
    (∀ p : Int, p < 0 ∨ Int.lor LOCAL7 DEBUG < p → NewWriter p = none) ∧
    (∀ p : Int, 0 ≤ p → p ≤ Int.lor LOCAL7 DEBUG → NewWriter p = some ⟨p⟩) ∧
    Int.lor LOCAL7 DEBUG = 23 * 8 + 7 := by
  refine ⟨?_, ?_, by decide⟩
  · intro p hp
    unfold NewWriter
    rw [if_pos hp]
  · intro p h0 h1
    unfold NewWriter
    rw [if_neg]
    rintro (hc | hc)
    · exact absurd h0 (not_le.mpr hc)
    · exact absurd h1 (not_le.mpr hc)

theorem C6_newWriter_validation_witness :
    NewWriter 200 = none ∧ NewWriter (-1) = none ∧
    NewWriter 191 = some ⟨191⟩ :=
  ⟨C6_newWriter_validation.1 200 (Or.inr (by decide)),
    C6_newWriter_validation.1 (-1) (Or.inl (by decide)),
    C6_newWriter_validation.2.1 191 (by decide) (by decide)⟩

/-- C7: in the produced line, each of hostname, appName, procid, msgId
is replaced by the placeholder `-` exactly when the argument is the empty
string; the structured-data field is `-` exactly when the data is nil or
its serialized fragment is empty, and (given distinct map keys) the
fragment is empty exactly when every element has zero parameters. -/
theorem C7_placeholders (pri : Int)
    (ts hostname appName procid msgid : String) (sd : Option StructuredData)
    (msg : String) (hmsg : msg ≠ "") :
    formatSyslog pri ts hostname appName procid msgid sd msg =
      some (syslogLine pri ts (if hostname = "" then "-" else hostname)
        (if appName = "" then "-" else appName)
        (if procid = "" then "-" else procid)
        (if msgid = "" then "-" else msgid)
        (if sdFragment sd = "" then "-" else sdFragment sd) msg ++
        newlineSuffix msg) ∧
    ((if sdFragment sd = "" then "-" else sdFragment sd) = "-" ↔
      sd = none ∨ sdFragment sd = "") ∧
    (∀ d : StructuredData, (sdKeys d).Nodup →
      (sdString d = "" ↔ ∀ pr ∈ d, pr.2 = ([] : SDElement))) := by
  refine ⟨?_, ⟨?_, ?_⟩, ?_⟩
  · rw [formatSyslog_eq _ _ _ _ _ _ _ _ hmsg]
    simp only [defaultIfEmpty]
  · intro h
    by_cases hf : sdFragment sd = ""
    · exact Or.inr hf
    · rw [if_neg hf] at h
      exact absurd h (sdFragment_ne_dash sd)
  · rintro (rfl | hf)
    · rfl
    · rw [if_pos hf]
  · intro d hn
    exact sdString_eq_empty_iff hn

theorem C7_placeholders_witness :
    formatSyslog 5 "T" "" "a" "" "m" none "hi" =
      some "<5>1 T - a - m - hi\n" := by
  have h := C7_placeholders 5 "T" "" "a" "" "m" none "hi" (by decide)
  rw [h.1]
  rfl

/-- C8: the specified behavior is that `formatSyslog` is total on an
empty body; the code instead evaluates `msg[len(msg)-1]` and panics
(modelled as `none`) on the empty body. -/
theorem C8_empty_body_faults :
    formatSyslog 13 "2024-01-01T00:00:00Z" "host" "app" "42" "mid" none "" =
      none := rfl

/-- C9: neither `formatSyslog` nor `logger.Log` validates the priority:
for every priority, including out-of-range and negative values, the
supplied decimal value is rendered verbatim inside `<...>` and the call
succeeds. -/
theorem C9_no_range_validation (pri : Int)
    (ts hostname appName procid msgid : String) (sd : Option StructuredData)
    (msg sink : String) (hmsg : msg ≠ "") :
    formatSyslog pri ts hostname appName procid msgid sd msg =
      some ("<" ++ toString pri ++ ">" ++ toString version ++ " " ++ ts ++
        " " ++ defaultIfEmpty hostname "-" ++ " " ++
        defaultIfEmpty appName "-" ++ " " ++ defaultIfEmpty procid "-" ++
        " " ++ defaultIfEmpty msgid "-" ++ " " ++
        defaultIfEmpty (sdFragment sd) "-" ++ " " ++ msg ++
        newlineSuffix msg) ∧
    loggerLog hostname appName procid pri msgid sd ts msg sink =
      some (sink ++ ("<" ++ toString pri ++ ">" ++ toString version ++ " " ++
        ts ++ " " ++ defaultIfEmpty hostname "-" ++ " " ++
        defaultIfEmpty appName "-" ++ " " ++ defaultIfEmpty procid "-" ++
        " " ++ defaultIfEmpty msgid "-" ++ " " ++
        defaultIfEmpty (sdFragment sd) "-" ++ " " ++ msg ++
        newlineSuffix msg)) := by
  have h := formatSyslog_eq pri ts hostname appName procid msgid sd msg hmsg
  constructor
  · rw [h]
    rfl
  · unfold loggerLog
    rw [h]
    rfl

theorem C9_no_range_validation_witness :
    formatSyslog 200 "T" "h" "a" "p" "m" none "x" =
      some "<200>1 T h a p m - x\n" ∧
    formatSyslog (-3) "T" "h" "a" "p" "m" none "x" =
      some "<-3>1 T h a p m - x\n" := by
  have h1 := C9_no_range_validation 200 "T" "h" "a" "p" "m" none "x" ""
    (by decide)
  have h2 := C9_no_range_validation (-3) "T" "h" "a" "p" "m" none "x" ""
    (by decide)
  exact ⟨by rw [h1.1]; rfl, by rw [h2.1]; rfl⟩

/-- C10: a `Write` of the empty byte sequence returns count 0, no error,
and leaves the underlying sink unchanged. -/
theorem C10_empty_write (f : String → String) (sink : String) :
    writerWrite f "" sink = (0, sink) := by
  unfold writerWrite
  rw [if_pos rfl]

end Syslog
